import Mathlib

/-!
Verification of the preferences dialog controller
(src/app/src/ui/preferences/preferences.tsx).

The component is embedded shallowly: the React state record becomes a Lean
structure, every collaborator invocation (git config write, default-branch
write, dispatcher setter, dismissal, error report) becomes an `Effect`
value, and the save handler becomes a function from props, state and a
failure environment to the resulting state together with the ordered list
of effects it issued.  Awaiting a collaborator call in the source can throw;
the environment `failOn` decides, per effect, whether the corresponding
awaited operation rejects and with which error.  Calls the source does not
await (refreshAuthor, setRepositoryIndicatorsEnabled) cannot abort the
handler and are marked as such.
-/

/-- The tabs of the dialog, mirroring the PreferencesTab enum. -/
inductive PreferencesTab where
  | Accounts
  | Integrations
  | Git
  | Appearance
  | Prompts
  | Advanced
deriving DecidableEq, Repr

/-- Modelled from the spec: the uncommitted-changes strategy setting
(src/app/src/models/uncommitted-changes-strategy is not under src/).  The
dialog only stores and forwards this value, so an abstract enumeration with
a default suffices. -/
inductive UncommittedChangesStrategy where
  | askForConfirmation
  | moveToNewBranch
  | stashOnCurrentBranch
deriving DecidableEq, Repr

/-- Modelled from the spec: the default strategy used by the constructor. -/
def defaultUncommittedChangesStrategy : UncommittedChangesStrategy :=
  UncommittedChangesStrategy.askForConfirmation

/-- Modelled from the spec: the slice of an account the dialog reads.  The
component uses only `account.login` and `lookupPreferredEmail(account)`
(src/app/src/models/account and src/app/src/lib/email are not under src/),
so an account is its login paired with the email that lookup returns. -/
structure Account where
  login : String
  preferredEmail : String
deriving DecidableEq, Repr

/-- Modelled from the spec: `lookupPreferredEmail` lives outside this file;
the dialog treats its result as an opaque string for the account. -/
def lookupPreferredEmail (account : Account) : String :=
  account.preferredEmail

/-- The slice of a save-time error the catch handler inspects.
`isConfigFileLockError e` and `parseConfigLockFilePathFromError e.result`
live outside this file; the handler only branches on their two results, so
an error is modelled by those two observations. -/
structure GitError where
  isConfigFileLockError : Bool
  parsedLockFilePath : Option String
deriving DecidableEq, Repr

/-- One collaborator invocation issued by the component, named after the
function the source calls. -/
inductive Effect where
  | setGlobalConfigValue (key value : String)
  | removeGlobalConfigValue (key : String)
  | setDefaultBranch (branch : String)
  | refreshAuthor
  | setRepositoryIndicatorsEnabled (enabled : Bool)
  | setStatsOptOut (optOut : Bool)
  | setConfirmRepoRemovalSetting (value : Bool)
  | setConfirmForcePushSetting (value : Bool)
  | setExternalEditor (editor : String)
  | setShell (shell : String)
  | setConfirmDiscardChangesSetting (value : Bool)
  | setUncommittedChangesStrategySetting (value : UncommittedChangesStrategy)
  | setSelectedTheme (theme : String)
  | postError
  | dismissed
deriving DecidableEq, Repr

/-- JavaScript truthiness of a value of type string-or-null: null and the
empty string are falsy. -/
def jsTruthy : Option String → Bool
  | none => false
  | some s => !(s == "")

/-- JavaScript string coercion of a value of type string-or-null, as
performed by the binary plus operator: null coerces to the text "null". -/
def jsStringOfNullable : Option String → String
  | none => "null"
  | some s => s

/-- The idiom value-or-empty-string applied to a string-or-null value. -/
def jsOrEmpty : Option String → String
  | none => ""
  | some s => s

/-- The JavaScript or-else on two nullable accounts, as in
dotComAccount or-else enterpriseAccount. -/
def jsOrAccount (a b : Option Account) : Option Account :=
  match a with
  | some x => some x
  | none => b

/-- The props of the component (IPreferencesProps).  The repository prop is
only ever tested against null, so presence is all that is modelled.  The
dispatcher and callbacks are the effect interface itself. -/
structure PreferencesProps where
  dotComAccount : Option Account
  enterpriseAccount : Option Account
  repository : Option Unit
  optOutOfUsageTracking : Bool
  initialSelectedTab : Option PreferencesTab
  confirmRepositoryRemoval : Bool
  confirmDiscardChanges : Bool
  confirmForcePush : Bool
  uncommittedChangesStrategy : UncommittedChangesStrategy
  selectedExternalEditor : Option String
  selectedShell : String
  selectedTheme : String
  repositoryIndicatorsEnabled : Bool
deriving DecidableEq, Repr

/-- The component state (IPreferencesState). -/
structure PreferencesState where
  selectedIndex : PreferencesTab
  committerName : String
  committerEmail : String
  defaultBranch : String
  mergeToolName : String
  mergeToolCommand : String
  initialCommitterName : Option String
  initialCommitterEmail : Option String
  initialDefaultBranch : Option String
  initialMergeToolName : Option String
  initialMergeToolCommand : Option String
  initialUseCustomMergeTool : Bool
  disallowedCharactersMessage : Option String
  optOutOfUsageTracking : Bool
  confirmRepositoryRemoval : Bool
  confirmDiscardChanges : Bool
  confirmForcePush : Bool
  useCustomMergeTool : Bool
  uncommittedChangesStrategy : UncommittedChangesStrategy
  availableEditors : List String
  selectedExternalEditor : Option String
  availableShells : List String
  selectedShell : String
  existingLockFilePath : Option String
  repositoryIndicatorsEnabled : Bool
deriving DecidableEq, Repr

/-- Modelled from the spec: the constant message shown for an invalid
committer name (src/app/src/ui/lib/identifier-rules is not under src/); its
contents are never inspected by the component. -/
def InvalidGitAuthorNameMessage : String :=
  "Name is invalid, it consists only of disallowed characters."

/-- The constructor of the component (lines 102 to 131): the initial state
before loading completes.  The or-else on the initial tab mirrors the
source, where a falsy initialSelectedTab yields the Accounts tab. -/
def initialState (p : PreferencesProps) : PreferencesState where
  selectedIndex := p.initialSelectedTab.getD PreferencesTab.Accounts
  committerName := ""
  committerEmail := ""
  mergeToolName := ""
  mergeToolCommand := ""
  defaultBranch := ""
  initialCommitterName := none
  initialCommitterEmail := none
  initialDefaultBranch := none
  initialMergeToolName := none
  initialMergeToolCommand := none
  initialUseCustomMergeTool := false
  disallowedCharactersMessage := none
  availableEditors := []
  optOutOfUsageTracking := false
  confirmRepositoryRemoval := false
  confirmDiscardChanges := false
  confirmForcePush := false
  useCustomMergeTool := false
  uncommittedChangesStrategy := defaultUncommittedChangesStrategy
  selectedExternalEditor := p.selectedExternalEditor
  availableShells := []
  selectedShell := p.selectedShell
  existingLockFilePath := none
  repositoryIndicatorsEnabled := p.repositoryIndicatorsEnabled

/-- componentWillMount (lines 133 to 198).  The reads are supplied by an
environment: `cfg` is the global git configuration (getGlobalConfigValue),
`theDefaultBranch` the result of getDefaultBranch, and the two lists the
results of editor and shell enumeration.  The setState of the source
becomes a record update of the constructor state. -/
def componentWillMount (p : PreferencesProps) (cfg : String → Option String)
    (theDefaultBranch : String)
    (editors shells : List String) (s : PreferencesState) : PreferencesState :=
  let initialCommitterName := cfg "user.name"
  let initialCommitterEmail := cfg "user.email"
  let initialDefaultBranch := theDefaultBranch
  let initialMergeToolName := cfg "merge.tool"
  let initialMergeToolCommand : Option String :=
    if jsTruthy initialMergeToolName then
      cfg ("mergetool." ++ jsStringOfNullable initialMergeToolName ++ ".cmd")
    else none
  let prefilled : Option String × Option String :=
    if ¬ jsTruthy initialCommitterName ∨ ¬ jsTruthy initialCommitterEmail then
      match jsOrAccount p.dotComAccount p.enterpriseAccount with
      | some account =>
        (if jsTruthy initialCommitterName then initialCommitterName
         else some account.login,
         if jsTruthy initialCommitterEmail then initialCommitterEmail
         else some (lookupPreferredEmail account))
      | none => (initialCommitterName, initialCommitterEmail)
    else (initialCommitterName, initialCommitterEmail)
  { s with
    committerName := jsOrEmpty prefilled.1
    committerEmail := jsOrEmpty prefilled.2
    mergeToolName := jsOrEmpty initialMergeToolName
    mergeToolCommand := jsOrEmpty initialMergeToolCommand
    defaultBranch := initialDefaultBranch
    initialCommitterName := initialCommitterName
    initialCommitterEmail := initialCommitterEmail
    initialDefaultBranch := some initialDefaultBranch
    initialMergeToolName := initialMergeToolName
    initialMergeToolCommand := initialMergeToolCommand
    initialUseCustomMergeTool := jsTruthy initialMergeToolName
    optOutOfUsageTracking := p.optOutOfUsageTracking
    confirmRepositoryRemoval := p.confirmRepositoryRemoval
    confirmDiscardChanges := p.confirmDiscardChanges
    confirmForcePush := p.confirmForcePush
    uncommittedChangesStrategy := p.uncommittedChangesStrategy
    availableShells := shells
    availableEditors := editors
    useCustomMergeTool := jsTruthy initialMergeToolName }

/-- A user-input event handled by the component between open and save, one
constructor per handler (lines 382 to 457 and 603 to 605). -/
inductive EditEvent where
  | repositoryIndicatorsEnabledChanged (v : Bool)
  | optOutofReportingChanged (v : Bool)
  | confirmRepositoryRemovalChanged (v : Bool)
  | confirmDiscardChangesChanged (v : Bool)
  | confirmForcePushChanged (v : Bool)
  | uncommittedChangesStrategyChanged (v : UncommittedChangesStrategy)
  | committerNameChanged (v : String)
  | mergeToolChanged (v : String)
  | useCustomMergeToolChanged (v : Bool)
  | mergeToolCommandChanged (v : String)
  | committerEmailChanged (v : String)
  | defaultBranchChanged (v : String)
  | selectedEditorChanged (v : String)
  | selectedShellChanged (v : String)
  | selectedThemeChanged (theme : String)
  | tabClicked (index : PreferencesTab)
  | lockFileDeleted
deriving DecidableEq, Repr

/-- The event handlers of the component, as a single dispatch: each returns
the updated component state and the effects it sends to collaborators.
`gitAuthorNameIsValid` (imported by the source from outside src/) is passed
in as an abstract predicate. -/
def applyEdit (gitAuthorNameIsValid : String → Bool) (ev : EditEvent)
    (s : PreferencesState) : PreferencesState × List Effect :=
  match ev with
  | .repositoryIndicatorsEnabledChanged v =>
    ({ s with repositoryIndicatorsEnabled := v }, [])
  | .optOutofReportingChanged v =>
    ({ s with optOutOfUsageTracking := v }, [])
  | .confirmRepositoryRemovalChanged v =>
    ({ s with confirmRepositoryRemoval := v }, [])
  | .confirmDiscardChangesChanged v =>
    ({ s with confirmDiscardChanges := v }, [])
  | .confirmForcePushChanged v =>
    ({ s with confirmForcePush := v }, [])
  | .uncommittedChangesStrategyChanged v =>
    ({ s with uncommittedChangesStrategy := v }, [])
  | .committerNameChanged v =>
    ({ s with
        committerName := v
        disallowedCharactersMessage :=
          if gitAuthorNameIsValid v then none
          else some InvalidGitAuthorNameMessage }, [])
  | .mergeToolChanged v =>
    ({ s with mergeToolName := v }, [])
  | .useCustomMergeToolChanged v =>
    ({ s with useCustomMergeTool := v }, [])
  | .mergeToolCommandChanged v =>
    ({ s with mergeToolCommand := v }, [])
  | .committerEmailChanged v =>
    ({ s with committerEmail := v }, [])
  | .defaultBranchChanged v =>
    ({ s with defaultBranch := v }, [])
  | .selectedEditorChanged v =>
    ({ s with selectedExternalEditor := some v }, [])
  | .selectedShellChanged v =>
    ({ s with selectedShell := v }, [])
  | .selectedThemeChanged theme =>
    (s, [Effect.setSelectedTheme theme])
  | .tabClicked index =>
    ({ s with selectedIndex := index }, [])
  | .lockFileDeleted =>
    ({ s with existingLockFilePath := none }, [])

/-- The effects issued inside the try block of onSave (lines 486 to 555), in
source order, as a function of the props and the drafted state.  Every
condition is the strict-inequality test of the source; the comparison of a
string field against its nullable initial shadow is a comparison in
Option String, as strict inequality never equates null with a string.
Line 552 concatenates without a dot and coerces a null initial name to the
text "null", exactly as the source does. -/
def plannedTryWrites (p : PreferencesProps) (s : PreferencesState) :
    List Effect :=
  (if some s.committerName ≠ s.initialCommitterName then
    [Effect.setGlobalConfigValue "user.name" s.committerName]
   else []) ++
  (if some s.committerEmail ≠ s.initialCommitterEmail then
    [Effect.setGlobalConfigValue "user.email" s.committerEmail]
   else []) ++
  (if p.repository ≠ none ∧
      (some s.committerName ≠ s.initialCommitterName ∨
       some s.committerEmail ≠ s.initialCommitterEmail) then
    [Effect.refreshAuthor]
   else []) ++
  (if 0 < s.defaultBranch.length ∧
      some s.defaultBranch ≠ s.initialDefaultBranch then
    [Effect.setDefaultBranch s.defaultBranch]
   else []) ++
  (if p.repositoryIndicatorsEnabled ≠ s.repositoryIndicatorsEnabled then
    [Effect.setRepositoryIndicatorsEnabled s.repositoryIndicatorsEnabled]
   else []) ++
  (if s.useCustomMergeTool ≠ s.initialUseCustomMergeTool ∨
      some s.mergeToolName ≠ s.initialMergeToolName ∨
      some s.mergeToolCommand ≠ s.initialMergeToolCommand then
    (if some s.mergeToolName ≠ s.initialMergeToolName ∧
        s.mergeToolName ≠ "" then
      [Effect.setGlobalConfigValue "merge.tool" s.mergeToolName]
     else []) ++
    (if some s.mergeToolCommand ≠ s.initialMergeToolCommand ∧
        s.mergeToolCommand ≠ "" then
      [Effect.setGlobalConfigValue
        ("mergetool." ++ s.mergeToolName ++ ".cmd") s.mergeToolCommand]
     else []) ++
    (if s.useCustomMergeTool = false then
      [Effect.removeGlobalConfigValue "merge.tool",
       Effect.removeGlobalConfigValue
         ("mergetool" ++ jsStringOfNullable s.initialMergeToolName ++ ".cmd")]
     else [])
   else [])

/-- The effects issued after the try block of onSave (lines 574 to 598), in
source order.  They are unconditional except for the external editor, which
the source guards by truthiness. -/
def plannedPostWrites (s : PreferencesState) : List Effect :=
  [Effect.setStatsOptOut s.optOutOfUsageTracking,
   Effect.setConfirmRepoRemovalSetting s.confirmRepositoryRemoval,
   Effect.setConfirmForcePushSetting s.confirmForcePush] ++
  (if jsTruthy s.selectedExternalEditor then
    [Effect.setExternalEditor (jsStringOfNullable s.selectedExternalEditor)]
   else []) ++
  [Effect.setShell s.selectedShell,
   Effect.setConfirmDiscardChangesSetting s.confirmDiscardChanges,
   Effect.setUncommittedChangesStrategySetting s.uncommittedChangesStrategy]

/-- Whether the source awaits the collaborator call for this effect.  Only
awaited calls can abort the handler: line 500 (refreshAuthor) and line 521
(setRepositoryIndicatorsEnabled) are fire-and-forget, and dismissal, error
reporting and theme selection are synchronous callbacks. -/
def awaitedEffect : Effect → Bool
  | Effect.refreshAuthor => false
  | Effect.setRepositoryIndicatorsEnabled _ => false
  | Effect.setSelectedTheme _ => false
  | Effect.postError => false
  | Effect.dismissed => false
  | _ => true

/-- Issue a list of effects in order.  An awaited effect on which the
environment `failOn` reports an error throws: the effect itself counts as
issued, everything after it is not, and the error is returned. -/
def runWrites (failOn : Effect → Option GitError) :
    List Effect → List Effect × Option GitError
  | [] => ([], none)
  | e :: rest =>
    if awaitedEffect e then
      match failOn e with
      | some err => ([e], some err)
      | none =>
        let r := runWrites failOn rest
        (e :: r.1, r.2)
    else
      let r := runWrites failOn rest
      (e :: r.1, r.2)

/-- onSave (lines 485 to 601).  The try block issues the conditional
configuration writes; on an error that is a config lock error with a
parseable lock file path the handler records the path, switches to the Git
tab and returns without dismissing; on any other error it dismisses and
posts the error; on success it issues the unconditional settings writes and
dismisses.  A rejection among the post-try awaited writes is not caught:
the handler stops without dismissing and without posting. -/
def onSave (p : PreferencesProps) (s : PreferencesState)
    (failOn : Effect → Option GitError) :
    PreferencesState × List Effect :=
  match runWrites failOn (plannedTryWrites p s) with
  | (tr, some e) =>
    if e.isConfigFileLockError then
      match e.parsedLockFilePath with
      | some lockFilePath =>
        ({ s with
            existingLockFilePath := some lockFilePath
            selectedIndex := PreferencesTab.Git }, tr)
      | none => (s, tr ++ [Effect.dismissed, Effect.postError])
    else (s, tr ++ [Effect.dismissed, Effect.postError])
  | (tr, none) =>
    match runWrites failOn (plannedPostWrites s) with
    | (tr2, some _) => (s, tr ++ tr2)
    | (tr2, none) => (s, tr ++ tr2 ++ [Effect.dismissed])

/-- The environment in which every awaited operation succeeds. -/
def noFailure : Effect → Option GitError := fun _ => none

/-- Membership in a conditional block of effects. -/
lemma mem_if_list {α : Type} {c : Prop} [Decidable c] {a : α} {l : List α} :
    (a ∈ if c then l else []) ↔ c ∧ a ∈ l := by
  split_ifs with h <;> simp [h]

/-- Every effect the executor reports as issued comes from the plan. -/
lemma runWrites_fst_subset (failOn : Effect → Option GitError) :
    ∀ l : List Effect, (runWrites failOn l).1 ⊆ l := by
  intro l
  induction l with
  | nil => simp [runWrites]
  | cons e rest ih =>
    unfold runWrites
    by_cases ha : awaitedEffect e
    · simp only [ha, if_true]
      cases hf : failOn e with
      | some err => simp
      | none => simpa using List.cons_subset_cons e ih
    · simp only [ha, Bool.false_eq_true, if_false]
      simpa using List.cons_subset_cons e ih

/-- In an environment with no failures the executor issues the whole plan. -/
lemma runWrites_of_forall_none {failOn : Effect → Option GitError}
    (hf : ∀ e, failOn e = none) : ∀ l, runWrites failOn l = (l, none) := by
  intro l
  induction l with
  | nil => rfl
  | cons e rest ih =>
    unfold runWrites
    by_cases ha : awaitedEffect e <;> simp [ha, hf e, ih]

/-- The no-failure environment issues the whole plan. -/
lemma runWrites_noFailure : ∀ l, runWrites noFailure l = (l, none) :=
  runWrites_of_forall_none (fun _ => rfl)

/-- If the executor reports no error it issued the whole plan. -/
lemma runWrites_fst_of_none {failOn : Effect → Option GitError} :
    ∀ {l : List Effect}, (runWrites failOn l).2 = none →
      (runWrites failOn l).1 = l := by
  intro l
  induction l with
  | nil => intro _; rfl
  | cons e rest ih =>
    intro h
    by_cases ha : awaitedEffect e
    · cases hf : failOn e with
      | some err =>
        unfold runWrites at h
        simp [ha, hf] at h
      | none =>
        unfold runWrites at h ⊢
        simp [ha, hf] at h ⊢
        exact ih h
    · unfold runWrites at h ⊢
      simp [ha] at h ⊢
      exact ih h

/-- The executor issues a prefix of the plan. -/
lemma runWrites_fst_take (failOn : Effect → Option GitError) :
    ∀ l : List Effect, ∃ k, k ≤ l.length ∧
      (runWrites failOn l).1 = l.take k := by
  intro l
  induction l with
  | nil => exact ⟨0, by simp [runWrites]⟩
  | cons e rest ih =>
    obtain ⟨k, hk, hek⟩ := ih
    unfold runWrites
    by_cases ha : awaitedEffect e
    · cases hf : failOn e with
      | some err =>
        refine ⟨1, by simp, ?_⟩
        simp [ha, hf]
      | none =>
        refine ⟨k + 1, by simp [Nat.succ_le_succ hk], ?_⟩
        simp [ha, hf, hek]
    · refine ⟨k + 1, by simp [Nat.succ_le_succ hk], ?_⟩
      simp [ha, hek]

/-- A save in the no-failure environment issues the two planned phases in
order and then dismisses. -/
lemma onSave_noFailure (p : PreferencesProps) (s : PreferencesState) :
    onSave p s noFailure =
      (s, plannedTryWrites p s ++ plannedPostWrites s ++ [Effect.dismissed]) := by
  unfold onSave
  rw [runWrites_noFailure, runWrites_noFailure]

/-- The dismissal callback is never part of the try-phase plan. -/
lemma dismissed_not_mem_plannedTry (p : PreferencesProps)
    (s : PreferencesState) : Effect.dismissed ∉ plannedTryWrites p s := by
  simp [plannedTryWrites, mem_if_list, List.mem_append]

/-- The error report is never part of the try-phase plan. -/
lemma postError_not_mem_plannedTry (p : PreferencesProps)
    (s : PreferencesState) : Effect.postError ∉ plannedTryWrites p s := by
  simp [plannedTryWrites, mem_if_list, List.mem_append]

/-- Every effect in a save trace is a planned write of one of the two
phases, the dismissal or the error report. -/
lemma mem_onSave_cases {p : PreferencesProps} {s : PreferencesState}
    {failOn : Effect → Option GitError} {e : Effect}
    (h : e ∈ (onSave p s failOn).2) :
    e ∈ plannedTryWrites p s ∨ e ∈ plannedPostWrites s ∨
      e = Effect.dismissed ∨ e = Effect.postError := by
  have hsub1 := runWrites_fst_subset failOn (plannedTryWrites p s)
  have hsub2 := runWrites_fst_subset failOn (plannedPostWrites s)
  unfold onSave at h
  rcases hrw : runWrites failOn (plannedTryWrites p s) with ⟨tr, r⟩
  rw [hrw] at h hsub1
  cases r with
  | some err =>
    simp only at h
    by_cases hl : err.isConfigFileLockError
    · rw [if_pos hl] at h
      cases hp : err.parsedLockFilePath with
      | some q => rw [hp] at h; simp only at h; exact Or.inl (hsub1 h)
      | none =>
        rw [hp] at h; simp only at h
        rw [List.mem_append] at h
        rcases h with h | h
        · exact Or.inl (hsub1 h)
        · simp at h
          rcases h with h | h
          · exact Or.inr (Or.inr (Or.inl h))
          · exact Or.inr (Or.inr (Or.inr h))
    · rw [if_neg hl] at h
      rw [List.mem_append] at h
      rcases h with h | h
      · exact Or.inl (hsub1 h)
      · simp at h
        rcases h with h | h
        · exact Or.inr (Or.inr (Or.inl h))
        · exact Or.inr (Or.inr (Or.inr h))
  | none =>
    simp only at h
    rcases hrw2 : runWrites failOn (plannedPostWrites s) with ⟨tr2, r2⟩
    rw [hrw2] at h hsub2
    cases r2 with
    | some err2 =>
      simp only at h
      rw [List.mem_append] at h
      rcases h with h | h
      · exact Or.inl (hsub1 h)
      · exact Or.inr (Or.inl (hsub2 h))
    | none =>
      simp only at h
      rw [List.mem_append, List.mem_append] at h
      rcases h with (h | h) | h
      · exact Or.inl (hsub1 h)
      · exact Or.inr (Or.inl (hsub2 h))
      · simp at h; exact Or.inr (Or.inr (Or.inl h))

/-- Length of the key written for a custom merge-tool command. -/
lemma cmdKey_length (x : String) :
    ("mergetool." ++ x ++ ".cmd").length = 14 + x.length := by
  rw [String.length_append, String.length_append]
  have e1 : "mergetool.".length = 10 := rfl
  have e2 : ".cmd".length = 4 := rfl
  omega

/-- The merge-tool command key never collides with a short literal key. -/
lemma cmdKey_ne_of_short (x k : String) (hk : k.length < 14) :
    ("mergetool." ++ x ++ ".cmd") ≠ k := by
  intro h
  have h2 := congrArg String.length h
  rw [cmdKey_length] at h2
  omega

/-- The merge-tool command key determines the tool name it embeds. -/
lemma cmdKey_inj {x y : String}
    (h : ("mergetool." ++ x ++ ".cmd") = ("mergetool." ++ y ++ ".cmd")) :
    x = y := by
  have h2 := congrArg String.data h
  rw [String.data_append, String.data_append, String.data_append,
    String.data_append] at h2
  have h3 := List.append_cancel_right h2
  have h4 := List.append_cancel_left h3
  exact String.ext h4

/-- A string of positive length is not the empty string, and conversely. -/
lemma string_pos_iff_ne_empty (x : String) : 0 < x.length ↔ x ≠ "" := by
  constructor
  · intro h he
    subst he
    simp at h
  · intro h
    rcases Nat.eq_zero_or_pos x.length with h0 | hp
    · exfalso
      apply h
      apply String.ext
      have hd : x.data = [] := List.length_eq_zero.mp h0
      simp [hd]
    · exact hp

/-- A concrete global configuration with a committer identity and a custom
merge tool fully configured. -/
def cfg0 : String → Option String := fun k =>
  if k = "user.name" then some "Alice"
  else if k = "user.email" then some "alice@example.com"
  else if k = "merge.tool" then some "vimdiff"
  else if k = "mergetool.vimdiff.cmd" then some "vimdiff $BASE $LOCAL" 
  else none

/-- Concrete props: no accounts, no repository, shell zsh, no external
editor, indicators enabled. -/
def p0 : PreferencesProps where
  dotComAccount := none
  enterpriseAccount := none
  repository := none
  optOutOfUsageTracking := false
  initialSelectedTab := none
  confirmRepositoryRemoval := true
  confirmDiscardChanges := true
  confirmForcePush := true
  uncommittedChangesStrategy := UncommittedChangesStrategy.askForConfirmation
  selectedExternalEditor := none
  selectedShell := "zsh"
  selectedTheme := "dark"
  repositoryIndicatorsEnabled := true

/-- The state right after loading completes under `cfg0`, with no edits. -/
def s0 : PreferencesState :=
  componentWillMount p0 cfg0 "main" [] [] (initialState p0)

/-- C3: a default-branch write in any save trace carries the drafted value
and occurs only when that value is non-empty and differs from the captured
initial value; in particular an empty draft is never written, keeping the
previously stored default branch. -/
theorem defaultBranch_write_only_nonempty_changed (p : PreferencesProps)
    (s : PreferencesState) (failOn : Effect → Option GitError) (b : String)
    (h : Effect.setDefaultBranch b ∈ (onSave p s failOn).2) :
    b = s.defaultBranch ∧ s.defaultBranch ≠ "" ∧
      some s.defaultBranch ≠ s.initialDefaultBranch := by
  rcases mem_onSave_cases h with h1 | h1 | h1 | h1
  · simp [plannedTryWrites, mem_if_list, List.mem_append] at h1
    obtain ⟨⟨hpos, hneq⟩, hb⟩ := h1
    exact ⟨hb, (string_pos_iff_ne_empty _).mp hpos, hneq⟩
  · simp [plannedPostWrites, mem_if_list, List.mem_append] at h1
  · simp at h1
  · simp at h1

/-- The loaded state with the default-branch field edited to trunk. -/
def sBranch : PreferencesState := { s0 with defaultBranch := "trunk" }

/-- C3 witness: the theorem applied to a concrete save that does write the
edited, non-empty default branch. -/
theorem defaultBranch_write_only_nonempty_changed_witness :
    "trunk" = sBranch.defaultBranch ∧ sBranch.defaultBranch ≠ "" ∧
      some sBranch.defaultBranch ≠ sBranch.initialDefaultBranch :=
  defaultBranch_write_only_nonempty_changed p0 sBranch noFailure "trunk"
    (by decide)

/-- Any global-config write of the try phase is one of the four conditional
writes of the source, with its guard holding. -/
lemma setGlobal_mem_plannedTry_cases {p : PreferencesProps}
    {s : PreferencesState} {k v : String}
    (h : Effect.setGlobalConfigValue k v ∈ plannedTryWrites p s) :
    (k = "user.name" ∧ v = s.committerName ∧
      some s.committerName ≠ s.initialCommitterName) ∨
    (k = "user.email" ∧ v = s.committerEmail ∧
      some s.committerEmail ≠ s.initialCommitterEmail) ∨
    (k = "merge.tool" ∧ v = s.mergeToolName ∧
      some s.mergeToolName ≠ s.initialMergeToolName ∧ s.mergeToolName ≠ "") ∨
    (k = "mergetool." ++ s.mergeToolName ++ ".cmd" ∧ v = s.mergeToolCommand ∧
      some s.mergeToolCommand ≠ s.initialMergeToolCommand ∧
      s.mergeToolCommand ≠ "") := by
  simp [plannedTryWrites, mem_if_list, List.mem_append] at h
  tauto

/-- The post phase issues no global-config write. -/
lemma setGlobal_not_mem_plannedPost {s : PreferencesState} {k v : String} :
    Effect.setGlobalConfigValue k v ∉ plannedPostWrites s := by
  simp [plannedPostWrites, mem_if_list, List.mem_append]

/-- C9: in any save trace, a write to the key merge.tool carries the drafted
tool name and occurs only when it is non-empty and differs from its initial
value, and a write to a key of the form mergetool.name.cmd carries the
drafted command for the drafted tool name and occurs only when the command
is non-empty and differs from its initial value. -/
theorem mergeTool_writes_only_nonempty_changed (p : PreferencesProps)
    (s : PreferencesState) (failOn : Effect → Option GitError) :
    (∀ v, Effect.setGlobalConfigValue "merge.tool" v ∈ (onSave p s failOn).2 →
      v = s.mergeToolName ∧ v ≠ "" ∧
        some s.mergeToolName ≠ s.initialMergeToolName) ∧
    (∀ x v,
      Effect.setGlobalConfigValue ("mergetool." ++ x ++ ".cmd") v ∈
          (onSave p s failOn).2 →
      x = s.mergeToolName ∧ v = s.mergeToolCommand ∧ v ≠ "" ∧
        some s.mergeToolCommand ≠ s.initialMergeToolCommand) := by
  constructor
  · intro v h
    rcases mem_onSave_cases h with h1 | h1 | h1 | h1
    · rcases setGlobal_mem_plannedTry_cases h1 with
        ⟨hk, _⟩ | ⟨hk, _⟩ | ⟨_, hv, hne, hnem⟩ | ⟨hk, _⟩
      · exact absurd hk (by decide)
      · exact absurd hk (by decide)
      · exact ⟨hv, hv ▸ hnem, hne⟩
      · exact absurd hk.symm (cmdKey_ne_of_short _ _ (by decide))
    · exact absurd h1 setGlobal_not_mem_plannedPost
    · simp at h1
    · simp at h1
  · intro x v h
    rcases mem_onSave_cases h with h1 | h1 | h1 | h1
    · rcases setGlobal_mem_plannedTry_cases h1 with
        ⟨hk, _⟩ | ⟨hk, _⟩ | ⟨hk, _⟩ | ⟨hk, hv, hne, hnem⟩
      · exact absurd hk (cmdKey_ne_of_short _ _ (by decide))
      · exact absurd hk (cmdKey_ne_of_short _ _ (by decide))
      · exact absurd hk (cmdKey_ne_of_short _ _ (by decide))
      · exact ⟨cmdKey_inj hk, hv, hv ▸ hnem, hne⟩
    · exact absurd h1 setGlobal_not_mem_plannedPost
    · simp at h1
    · simp at h1

/-- The loaded state with both merge-tool fields edited. -/
def sMerge : PreferencesState :=
  { s0 with mergeToolName := "meld", mergeToolCommand := "meld $LOCAL" }

/-- C9 witness: the theorem applied to a concrete save that writes both the
edited tool name and the edited command. -/
theorem mergeTool_writes_only_nonempty_changed_witness :
    ("meld" = sMerge.mergeToolName ∧ "meld" ≠ "" ∧
      some sMerge.mergeToolName ≠ sMerge.initialMergeToolName) ∧
    ("meld" = sMerge.mergeToolName ∧ "meld $LOCAL" = sMerge.mergeToolCommand ∧
      "meld $LOCAL" ≠ "" ∧
      some sMerge.mergeToolCommand ≠ sMerge.initialMergeToolCommand) :=
  ⟨(mergeTool_writes_only_nonempty_changed p0 sMerge noFailure).1 "meld"
      (by decide),
   (mergeTool_writes_only_nonempty_changed p0 sMerge noFailure).2 "meld"
      "meld $LOCAL" (by decide)⟩

/-- C1 counterexample: in the freshly loaded state s0 no field differs from
its captured initial value, yet the save still writes the stats opt-out and
the shell settings (among others), so save does not write a field only if
it changed. -/
theorem save_unchanged_field_still_written :
    s0.optOutOfUsageTracking = p0.optOutOfUsageTracking ∧
    s0.selectedShell = p0.selectedShell ∧
    plannedTryWrites p0 s0 = [] ∧
    Effect.setStatsOptOut s0.optOutOfUsageTracking ∈ (onSave p0 s0 noFailure).2 ∧
    Effect.setShell s0.selectedShell ∈ (onSave p0 s0 noFailure).2 := by
  decide

/-- C1 amended: on a save with no failures, the git-configuration-backed
fields (committer name, committer email, default branch, merge-tool name
and command) and the repository-indicator setting are written if and only
if they changed, the default branch and the two merge-tool writes
additionally only when the draft is non-empty; the stats opt-out, the
confirmation prompts, the shell and the uncommitted-changes strategy are
written unconditionally, and the external editor is written if and only if
one is selected. -/
theorem save_write_conditions (p : PreferencesProps) (s : PreferencesState) :
    ((∃ v, Effect.setGlobalConfigValue "user.name" v ∈
        (onSave p s noFailure).2) ↔
      some s.committerName ≠ s.initialCommitterName) ∧
    ((∃ v, Effect.setGlobalConfigValue "user.email" v ∈
        (onSave p s noFailure).2) ↔
      some s.committerEmail ≠ s.initialCommitterEmail) ∧
    ((∃ b, Effect.setDefaultBranch b ∈ (onSave p s noFailure).2) ↔
      (s.defaultBranch ≠ "" ∧
        some s.defaultBranch ≠ s.initialDefaultBranch)) ∧
    ((∃ v, Effect.setGlobalConfigValue "merge.tool" v ∈
        (onSave p s noFailure).2) ↔
      (some s.mergeToolName ≠ s.initialMergeToolName ∧
        s.mergeToolName ≠ "")) ∧
    ((∃ v, Effect.setGlobalConfigValue
        ("mergetool." ++ s.mergeToolName ++ ".cmd") v ∈
        (onSave p s noFailure).2) ↔
      (some s.mergeToolCommand ≠ s.initialMergeToolCommand ∧
        s.mergeToolCommand ≠ "")) ∧
    ((∃ b, Effect.setRepositoryIndicatorsEnabled b ∈
        (onSave p s noFailure).2) ↔
      p.repositoryIndicatorsEnabled ≠ s.repositoryIndicatorsEnabled) ∧
    Effect.setStatsOptOut s.optOutOfUsageTracking ∈ (onSave p s noFailure).2 ∧
    Effect.setConfirmRepoRemovalSetting s.confirmRepositoryRemoval ∈
      (onSave p s noFailure).2 ∧
    Effect.setConfirmForcePushSetting s.confirmForcePush ∈
      (onSave p s noFailure).2 ∧
    ((∃ ed, Effect.setExternalEditor ed ∈ (onSave p s noFailure).2) ↔
      jsTruthy s.selectedExternalEditor = true) ∧
    Effect.setShell s.selectedShell ∈ (onSave p s noFailure).2 ∧
    Effect.setConfirmDiscardChangesSetting s.confirmDiscardChanges ∈
      (onSave p s noFailure).2 ∧
    Effect.setUncommittedChangesStrategySetting s.uncommittedChangesStrategy ∈
      (onSave p s noFailure).2 := by
  rw [onSave_noFailure]
  simp only [List.mem_append]
  refine ⟨?_, ?_, ?_, ?_, ?_, ?_, ?_, ?_, ?_, ?_, ?_, ?_, ?_⟩
  · constructor
    · rintro ⟨v, (hv | hv) | hv⟩
      · rcases setGlobal_mem_plannedTry_cases hv with
          ⟨_, _, hc⟩ | ⟨hk, _⟩ | ⟨hk, _⟩ | ⟨hk, _⟩
        · exact hc
        · exact absurd hk (by decide)
        · exact absurd hk (by decide)
        · exact absurd hk.symm (cmdKey_ne_of_short _ _ (by decide))
      · exact absurd hv setGlobal_not_mem_plannedPost
      · simp at hv
    · intro hc
      refine ⟨s.committerName, Or.inl (Or.inl ?_)⟩
      simp [plannedTryWrites, List.mem_append, mem_if_list, hc]
  · constructor
    · rintro ⟨v, (hv | hv) | hv⟩
      · rcases setGlobal_mem_plannedTry_cases hv with
          ⟨hk, _⟩ | ⟨_, _, hc⟩ | ⟨hk, _⟩ | ⟨hk, _⟩
        · exact absurd hk (by decide)
        · exact hc
        · exact absurd hk (by decide)
        · exact absurd hk.symm (cmdKey_ne_of_short _ _ (by decide))
      · exact absurd hv setGlobal_not_mem_plannedPost
      · simp at hv
    · intro hc
      refine ⟨s.committerEmail, Or.inl (Or.inl ?_)⟩
      simp [plannedTryWrites, List.mem_append, mem_if_list, hc]
  · constructor
    · rintro ⟨b, (hb | hb) | hb⟩
      · simp [plannedTryWrites, mem_if_list, List.mem_append] at hb
        obtain ⟨⟨hpos, hne⟩, _⟩ := hb
        exact ⟨(string_pos_iff_ne_empty _).mp hpos, hne⟩
      · simp [plannedPostWrites, mem_if_list, List.mem_append] at hb
      · simp at hb
    · rintro ⟨h0, hne⟩
      refine ⟨s.defaultBranch, Or.inl (Or.inl ?_)⟩
      have hpos := (string_pos_iff_ne_empty s.defaultBranch).mpr h0
      simp [plannedTryWrites, List.mem_append, mem_if_list, hpos, hne]
  · constructor
    · rintro ⟨v, (hv | hv) | hv⟩
      · rcases setGlobal_mem_plannedTry_cases hv with
          ⟨hk, _⟩ | ⟨hk, _⟩ | ⟨_, _, hne, hn0⟩ | ⟨hk, _⟩
        · exact absurd hk (by decide)
        · exact absurd hk (by decide)
        · exact ⟨hne, hn0⟩
        · exact absurd hk.symm (cmdKey_ne_of_short _ _ (by decide))
      · exact absurd hv setGlobal_not_mem_plannedPost
      · simp at hv
    · rintro ⟨hne, hn0⟩
      refine ⟨s.mergeToolName, Or.inl (Or.inl ?_)⟩
      simp [plannedTryWrites, List.mem_append, mem_if_list, hne, hn0]
  · constructor
    · rintro ⟨v, (hv | hv) | hv⟩
      · rcases setGlobal_mem_plannedTry_cases hv with
          ⟨hk, _⟩ | ⟨hk, _⟩ | ⟨hk, _⟩ | ⟨_, _, hne, hc0⟩
        · exact absurd hk (cmdKey_ne_of_short _ _ (by decide))
        · exact absurd hk (cmdKey_ne_of_short _ _ (by decide))
        · exact absurd hk (cmdKey_ne_of_short _ _ (by decide))
        · exact ⟨hne, hc0⟩
      · exact absurd hv setGlobal_not_mem_plannedPost
      · simp at hv
    · rintro ⟨hne, hc0⟩
      refine ⟨s.mergeToolCommand, Or.inl (Or.inl ?_)⟩
      simp [plannedTryWrites, List.mem_append, mem_if_list, hne, hc0]
  · constructor
    · rintro ⟨b, (hb | hb) | hb⟩
      · simp [plannedTryWrites, mem_if_list, List.mem_append] at hb
        exact hb.1
      · simp [plannedPostWrites, mem_if_list, List.mem_append] at hb
      · simp at hb
    · intro hc
      refine ⟨s.repositoryIndicatorsEnabled, Or.inl (Or.inl ?_)⟩
      simp [plannedTryWrites, List.mem_append, mem_if_list, hc]
  · exact Or.inl (Or.inr (by simp [plannedPostWrites, List.mem_append]))
  · exact Or.inl (Or.inr (by simp [plannedPostWrites, List.mem_append]))
  · exact Or.inl (Or.inr (by simp [plannedPostWrites, List.mem_append]))
  · constructor
    · rintro ⟨ed, (he | he) | he⟩
      · simp [plannedTryWrites, mem_if_list, List.mem_append] at he
      · simp [plannedPostWrites, mem_if_list, List.mem_append] at he
        exact he.1
      · simp at he
    · intro ht
      refine ⟨jsStringOfNullable s.selectedExternalEditor,
        Or.inl (Or.inr ?_)⟩
      simp [plannedPostWrites, List.mem_append, mem_if_list, ht]
  · exact Or.inl (Or.inr (by simp [plannedPostWrites, List.mem_append]))
  · exact Or.inl (Or.inr (by simp [plannedPostWrites, List.mem_append]))
  · exact Or.inl (Or.inr (by simp [plannedPostWrites, List.mem_append]))

/-- C2: when the try phase of a save fails with a config lock error whose
lock file path parses, the dialog is not dismissed, no error is posted, the
selected tab becomes the Git tab, the lock file path is recorded, and every
other piece of drafted state is unchanged. -/
theorem lockError_keeps_dialog_open (p : PreferencesProps)
    (s : PreferencesState) (failOn : Effect → Option GitError) (e : GitError)
    (path : String)
    (h1 : (runWrites failOn (plannedTryWrites p s)).2 = some e)
    (h2 : e.isConfigFileLockError = true)
    (h3 : e.parsedLockFilePath = some path) :
    (onSave p s failOn).1 =
      { s with existingLockFilePath := some path,
               selectedIndex := PreferencesTab.Git } ∧
    Effect.dismissed ∉ (onSave p s failOn).2 ∧
    Effect.postError ∉ (onSave p s failOn).2 ∧
    (onSave p s failOn).1.selectedIndex = PreferencesTab.Git ∧
    (onSave p s failOn).1.committerName = s.committerName ∧
    (onSave p s failOn).1.committerEmail = s.committerEmail ∧
    (onSave p s failOn).1.defaultBranch = s.defaultBranch ∧
    (onSave p s failOn).1.mergeToolName = s.mergeToolName ∧
    (onSave p s failOn).1.mergeToolCommand = s.mergeToolCommand ∧
    (onSave p s failOn).1.useCustomMergeTool = s.useCustomMergeTool ∧
    (onSave p s failOn).1.optOutOfUsageTracking = s.optOutOfUsageTracking ∧
    (onSave p s failOn).1.confirmRepositoryRemoval =
      s.confirmRepositoryRemoval ∧
    (onSave p s failOn).1.confirmDiscardChanges = s.confirmDiscardChanges ∧
    (onSave p s failOn).1.confirmForcePush = s.confirmForcePush ∧
    (onSave p s failOn).1.uncommittedChangesStrategy =
      s.uncommittedChangesStrategy ∧
    (onSave p s failOn).1.selectedExternalEditor = s.selectedExternalEditor ∧
    (onSave p s failOn).1.selectedShell = s.selectedShell ∧
    (onSave p s failOn).1.repositoryIndicatorsEnabled =
      s.repositoryIndicatorsEnabled := by
  have honsave : onSave p s failOn =
      ({ s with existingLockFilePath := some path,
                selectedIndex := PreferencesTab.Git },
        (runWrites failOn (plannedTryWrites p s)).1) := by
    unfold onSave
    rcases hrw : runWrites failOn (plannedTryWrites p s) with ⟨tr, r⟩
    rw [hrw] at h1
    simp only at h1
    subst h1
    simp [h2, h3]
  have hsub := runWrites_fst_subset failOn (plannedTryWrites p s)
  have hd : Effect.dismissed ∉ (runWrites failOn (plannedTryWrites p s)).1 :=
    fun hm => dismissed_not_mem_plannedTry p s (hsub hm)
  have hp : Effect.postError ∉ (runWrites failOn (plannedTryWrites p s)).1 :=
    fun hm => postError_not_mem_plannedTry p s (hsub hm)
  rw [honsave]
  exact ⟨rfl, hd, hp, rfl, rfl, rfl, rfl, rfl, rfl, rfl, rfl, rfl, rfl, rfl,
    rfl, rfl, rfl, rfl⟩

/-- An environment in which the write of the committer name fails because
the global configuration file is locked. -/
def failLock : Effect → Option GitError := fun e =>
  match e with
  | Effect.setGlobalConfigValue "user.name" _ =>
    some { isConfigFileLockError := true,
           parsedLockFilePath := some "/home/alice/.gitconfig.lock" }
  | _ => none

/-- The loaded state with the committer name edited. -/
def sName : PreferencesState := { s0 with committerName := "Bob" }

/-- C2 witness: the theorem applied to a concrete save whose first write
hits a config lock. -/
theorem lockError_keeps_dialog_open_witness :
    (onSave p0 sName failLock).1 =
      { sName with existingLockFilePath := some "/home/alice/.gitconfig.lock",
                   selectedIndex := PreferencesTab.Git } ∧
    (onSave p0 sName failLock).1.selectedIndex = PreferencesTab.Git :=
  ⟨(lockError_keeps_dialog_open p0 sName failLock
      { isConfigFileLockError := true,
        parsedLockFilePath := some "/home/alice/.gitconfig.lock" }
      "/home/alice/.gitconfig.lock" (by decide) rfl rfl).1,
   (lockError_keeps_dialog_open p0 sName failLock
      { isConfigFileLockError := true,
        parsedLockFilePath := some "/home/alice/.gitconfig.lock" }
      "/home/alice/.gitconfig.lock" (by decide) rfl rfl).2.2.2.1⟩

/-- An environment in which the awaited shell settings write, issued after
the try block, fails with an error that is not a lock conflict. -/
def failShell : Effect → Option GitError := fun e =>
  match e with
  | Effect.setShell _ =>
    some { isConfigFileLockError := false, parsedLockFilePath := none }
  | _ => none

/-- C4 counterexample: a failure of an awaited settings write after the try
block (here the shell write) is a save-time write failure with a non-lock
error, yet the dialog is not dismissed and no error is forwarded, because
only the configuration writes are guarded by the catch handler. -/
theorem postPhase_error_not_dismissed_not_reported :
    failShell (Effect.setShell s0.selectedShell) =
      some { isConfigFileLockError := false, parsedLockFilePath := none } ∧
    Effect.setShell s0.selectedShell ∈ (onSave p0 s0 failShell).2 ∧
    (onSave p0 s0 failShell).2.count Effect.dismissed = 0 ∧
    (onSave p0 s0 failShell).2.count Effect.postError = 0 := by
  decide

/-- C4 amended: when a write of the guarded try phase fails with an error
that is not a lock error with a parseable path, the save dismisses exactly
once, posts exactly one error, issues no further write after the failing
one, and leaves the drafted state unchanged. -/
theorem tryPhase_error_dismisses_once (p : PreferencesProps)
    (s : PreferencesState) (failOn : Effect → Option GitError) (e : GitError)
    (h1 : (runWrites failOn (plannedTryWrites p s)).2 = some e)
    (h2 : e.isConfigFileLockError = false ∨ e.parsedLockFilePath = none) :
    (onSave p s failOn).2 =
      (runWrites failOn (plannedTryWrites p s)).1 ++
        [Effect.dismissed, Effect.postError] ∧
    (onSave p s failOn).2.count Effect.dismissed = 1 ∧
    (onSave p s failOn).2.count Effect.postError = 1 ∧
    (onSave p s failOn).1 = s := by
  have honsave : onSave p s failOn =
      (s, (runWrites failOn (plannedTryWrites p s)).1 ++
        [Effect.dismissed, Effect.postError]) := by
    unfold onSave
    rcases hrw : runWrites failOn (plannedTryWrites p s) with ⟨tr, r⟩
    rw [hrw] at h1
    simp only at h1
    subst h1
    rcases h2 with h2 | h2
    · simp [h2]
    · by_cases hl : e.isConfigFileLockError
      · simp [hl, h2]
      · simp [hl]
  have hsub := runWrites_fst_subset failOn (plannedTryWrites p s)
  have hd : Effect.dismissed ∉ (runWrites failOn (plannedTryWrites p s)).1 :=
    fun hm => dismissed_not_mem_plannedTry p s (hsub hm)
  have hp : Effect.postError ∉ (runWrites failOn (plannedTryWrites p s)).1 :=
    fun hm => postError_not_mem_plannedTry p s (hsub hm)
  rw [honsave]
  refine ⟨rfl, ?_, ?_, rfl⟩
  · rw [List.count_append, List.count_eq_zero.mpr hd]
    decide
  · rw [List.count_append, List.count_eq_zero.mpr hp]
    decide

/-- An environment in which the write of the committer name fails with an
error that is not a lock conflict. -/
def failPlain : Effect → Option GitError := fun e =>
  match e with
  | Effect.setGlobalConfigValue "user.name" _ =>
    some { isConfigFileLockError := false, parsedLockFilePath := none }
  | _ => none

/-- C4 witness: the amended theorem applied to a concrete save whose
committer-name write fails with a plain error. -/
theorem tryPhase_error_dismisses_once_witness :
    (onSave p0 sName failPlain).2.count Effect.dismissed = 1 ∧
    (onSave p0 sName failPlain).2.count Effect.postError = 1 :=
  ⟨(tryPhase_error_dismisses_once p0 sName failPlain
      { isConfigFileLockError := false, parsedLockFilePath := none }
      (by decide) (Or.inl rfl)).2.1,
   (tryPhase_error_dismisses_once p0 sName failPlain
      { isConfigFileLockError := false, parsedLockFilePath := none }
      (by decide) (Or.inl rfl)).2.2.1⟩

/-- When the executor issues a failing awaited effect, that effect ends the
issued list, everything issued before it succeeded, and the run stops with
exactly its error. -/
lemma runWrites_failure_split (failOn : Effect → Option GitError)
    (e : Effect) (ha : awaitedEffect e = true) (hf : failOn e ≠ none) :
    ∀ l : List Effect, e ∈ (runWrites failOn l).1 →
      ∃ pre, (runWrites failOn l).1 = pre ++ [e] ∧
        (∀ x ∈ pre, awaitedEffect x = true → failOn x = none) ∧
        (runWrites failOn l).2 = failOn e := by
  intro l
  induction l with
  | nil => intro hm; simp [runWrites] at hm
  | cons x rest ih =>
    intro hm
    by_cases hax : awaitedEffect x
    · cases hfx : failOn x with
      | some err =>
        have heq : runWrites failOn (x :: rest) = ([x], some err) := by
          simp [runWrites, hax, hfx]
        rw [heq] at hm ⊢
        simp only [List.mem_singleton] at hm
        subst hm
        exact ⟨[], by simp, by intro y hy; simp at hy, by simp [hfx]⟩
      | none =>
        have heq : runWrites failOn (x :: rest) =
            (x :: (runWrites failOn rest).1, (runWrites failOn rest).2) := by
          simp [runWrites, hax, hfx]
        rw [heq] at hm ⊢
        rcases List.mem_cons.mp hm with rfl | hm
        · exact absurd hfx hf
        · obtain ⟨pre, h1, h2, h3⟩ := ih hm
          refine ⟨x :: pre, by simp [h1], ?_, h3⟩
          intro y hy hay
          rcases List.mem_cons.mp hy with rfl | hy
          · exact hfx
          · exact h2 y hy hay
    · have heq : runWrites failOn (x :: rest) =
          (x :: (runWrites failOn rest).1, (runWrites failOn rest).2) := by
        simp [runWrites, hax]
      rw [heq] at hm ⊢
      rcases List.mem_cons.mp hm with rfl | hm
      · exact absurd ha (by simp [hax])
      · obtain ⟨pre, h1, h2, h3⟩ := ih hm
        refine ⟨x :: pre, by simp [h1], ?_, h3⟩
        intro y hy hay
        rcases List.mem_cons.mp hy with rfl | hy
        · exact absurd hay hax
        · exact h2 y hy hay

/-- When the executor reports no error, every awaited effect it issued
succeeded. -/
lemma runWrites_none_all_ok (failOn : Effect → Option GitError) :
    ∀ l : List Effect, (runWrites failOn l).2 = none →
      ∀ x ∈ (runWrites failOn l).1, awaitedEffect x = true →
        failOn x = none := by
  intro l
  induction l with
  | nil => intro _ x hx; simp [runWrites] at hx
  | cons y rest ih =>
    intro hnone x hx hax
    by_cases hay : awaitedEffect y
    · cases hfy : failOn y with
      | some err =>
        have heq : runWrites failOn (y :: rest) = ([y], some err) := by
          simp [runWrites, hay, hfy]
        rw [heq] at hnone
        simp at hnone
      | none =>
        have heq : runWrites failOn (y :: rest) =
            (y :: (runWrites failOn rest).1, (runWrites failOn rest).2) := by
          simp [runWrites, hay, hfy]
        rw [heq] at hnone hx
        rcases List.mem_cons.mp hx with rfl | hx
        · exact hfy
        · exact ih hnone x hx hax
    · have heq : runWrites failOn (y :: rest) =
          (y :: (runWrites failOn rest).1, (runWrites failOn rest).2) := by
        simp [runWrites, hay]
      rw [heq] at hnone hx
      rcases List.mem_cons.mp hx with rfl | hx
      · exact absurd hax hay
      · exact ih hnone x hx hax

/-- C6: the writes of a save are issued one after another following the
fixed plan determined by props and state: every trace is a prefix of that
plan followed only by dismissal bookkeeping; in absence of failures the
full plan is issued in order, followed by the dismissal; and whenever a
failing awaited write appears in a trace, every write issued before it
succeeded and nothing follows it except the dismissal bookkeeping, so no
write to any collaborator is issued after the first failing write. -/
theorem save_writes_sequential (p : PreferencesProps) (s : PreferencesState)
    (failOn : Effect → Option GitError) :
    (∃ k suffix,
      (suffix = ([] : List Effect) ∨ suffix = [Effect.dismissed] ∨
        suffix = [Effect.dismissed, Effect.postError]) ∧
      (onSave p s failOn).2 =
        (plannedTryWrites p s ++ plannedPostWrites s).take k ++ suffix) ∧
    ((∀ e, failOn e = none) →
      (onSave p s failOn).2 =
        plannedTryWrites p s ++ plannedPostWrites s ++ [Effect.dismissed]) ∧
    (∀ e, awaitedEffect e = true → failOn e ≠ none →
      e ∈ (onSave p s failOn).2 →
      ∃ pre suffix,
        (suffix = ([] : List Effect) ∨
          suffix = [Effect.dismissed, Effect.postError]) ∧
        (onSave p s failOn).2 = pre ++ e :: suffix ∧
        (∀ x ∈ pre, awaitedEffect x = true → failOn x = none)) := by
  refine ⟨?_, ?_, ?_⟩
  · unfold onSave
    obtain ⟨k, hk, htr⟩ := runWrites_fst_take failOn (plannedTryWrites p s)
    rcases hrw : runWrites failOn (plannedTryWrites p s) with ⟨tr, r⟩
    rw [hrw] at htr
    simp only at htr
    cases r with
    | some e =>
      by_cases hl : e.isConfigFileLockError
      · cases hp : e.parsedLockFilePath with
        | some q =>
          refine ⟨k, [], Or.inl rfl, ?_⟩
          rw [List.take_append_of_le_length hk]
          simp [hl, hp, htr]
        | none =>
          refine ⟨k, [Effect.dismissed, Effect.postError],
            Or.inr (Or.inr rfl), ?_⟩
          rw [List.take_append_of_le_length hk]
          simp [hl, hp, htr]
      · refine ⟨k, [Effect.dismissed, Effect.postError],
          Or.inr (Or.inr rfl), ?_⟩
        rw [List.take_append_of_le_length hk]
        simp [hl, htr]
    | none =>
      have htrfull : tr = plannedTryWrites p s := by
        have h0 : (runWrites failOn (plannedTryWrites p s)).2 = none := by
          rw [hrw]
        have := runWrites_fst_of_none h0
        rw [hrw] at this
        exact this
      obtain ⟨j, hj, htr2⟩ := runWrites_fst_take failOn (plannedPostWrites s)
      rcases hrw2 : runWrites failOn (plannedPostWrites s) with ⟨tr2, r2⟩
      rw [hrw2] at htr2
      simp only at htr2
      cases r2 with
      | some e2 =>
        refine ⟨(plannedTryWrites p s).length + j, [], Or.inl rfl, ?_⟩
        rw [List.take_append]
        simp [htrfull, htr2]
      | none =>
        have htr2full : tr2 = plannedPostWrites s := by
          have h0 : (runWrites failOn (plannedPostWrites s)).2 = none := by
            rw [hrw2]
          have := runWrites_fst_of_none h0
          rw [hrw2] at this
          exact this
        refine ⟨(plannedTryWrites p s ++ plannedPostWrites s).length,
          [Effect.dismissed], Or.inr (Or.inl rfl), ?_⟩
        rw [List.take_length]
        simp [htrfull, htr2full]
  · intro hf
    have h1 := runWrites_of_forall_none hf (plannedTryWrites p s)
    have h2 := runWrites_of_forall_none hf (plannedPostWrites s)
    unfold onSave
    rw [h1, h2]
  · intro e ha hf he
    rcases hrw : runWrites failOn (plannedTryWrites p s) with ⟨tr, r⟩
    have htr1 : tr = (runWrites failOn (plannedTryWrites p s)).1 := by
      rw [hrw]
    cases r with
    | some err =>
      have hsave : (onSave p s failOn).2 = tr ∨
          (onSave p s failOn).2 =
            tr ++ [Effect.dismissed, Effect.postError] := by
        unfold onSave
        rw [hrw]
        by_cases hl : err.isConfigFileLockError
        · cases hp : err.parsedLockFilePath with
          | some q => left; simp [hl, hp]
          | none => right; simp [hl, hp]
        · right; simp [hl]
      rcases hsave with hsave | hsave
      · rw [hsave] at he ⊢
        obtain ⟨pre, h1, h2, _⟩ := runWrites_failure_split failOn e ha hf
          (plannedTryWrites p s) (htr1 ▸ he)
        refine ⟨pre, [], Or.inl rfl, ?_, h2⟩
        rw [htr1, h1]
      · rw [hsave] at he ⊢
        have hetr : e ∈ tr := by
          rcases List.mem_append.mp he with h | h
          · exact h
          · exfalso
            simp at h
            rcases h with rfl | rfl <;> simp [awaitedEffect] at ha
        obtain ⟨pre, h1, h2, _⟩ := runWrites_failure_split failOn e ha hf
          (plannedTryWrites p s) (htr1 ▸ hetr)
        refine ⟨pre, [Effect.dismissed, Effect.postError],
          Or.inr rfl, ?_, h2⟩
        rw [htr1, h1]
        simp
    | none =>
      have hr2 : (runWrites failOn (plannedTryWrites p s)).2 = none := by
        rw [hrw]
      have hnotr : e ∉ tr := fun hm =>
        hf (runWrites_none_all_ok failOn (plannedTryWrites p s) hr2 e
          (htr1 ▸ hm) ha)
      rcases hrw2 : runWrites failOn (plannedPostWrites s) with ⟨tr2, r2⟩
      have htr2 : tr2 = (runWrites failOn (plannedPostWrites s)).1 := by
        rw [hrw2]
      cases r2 with
      | some err2 =>
        have hsave : (onSave p s failOn).2 = tr ++ tr2 := by
          unfold onSave
          rw [hrw, hrw2]
        rw [hsave] at he ⊢
        have hetr2 : e ∈ tr2 := by
          rcases List.mem_append.mp he with h | h
          · exact absurd h hnotr
          · exact h
        obtain ⟨pre2, h1, h2, _⟩ := runWrites_failure_split failOn e ha hf
          (plannedPostWrites s) (htr2 ▸ hetr2)
        refine ⟨tr ++ pre2, [], Or.inl rfl, ?_, ?_⟩
        · rw [htr2, h1]
          simp
        · intro x hx hax
          rcases List.mem_append.mp hx with hx | hx
          · exact runWrites_none_all_ok failOn (plannedTryWrites p s) hr2 x
              (htr1 ▸ hx) hax
          · exact h2 x hx hax
      | none =>
        have hr22 : (runWrites failOn (plannedPostWrites s)).2 = none := by
          rw [hrw2]
        have hsave : (onSave p s failOn).2 =
            tr ++ tr2 ++ [Effect.dismissed] := by
          unfold onSave
          rw [hrw, hrw2]
        rw [hsave] at he
        exfalso
        rcases List.mem_append.mp he with h | h
        · rcases List.mem_append.mp h with h | h
          · exact hnotr h
          · exact hf (runWrites_none_all_ok failOn (plannedPostWrites s)
              hr22 e (htr2 ▸ h) ha)
        · simp at h
          subst h
          simp [awaitedEffect] at ha

/-- C6 witness: the theorem applied to the concrete loaded state in the
no-failure environment. -/
theorem save_writes_sequential_witness :
    (onSave p0 s0 noFailure).2 =
      plannedTryWrites p0 s0 ++ plannedPostWrites s0 ++ [Effect.dismissed] :=
  (save_writes_sequential p0 s0 noFailure).2.1 (fun _ => rfl)


/-- C5 counterexample: selecting a theme dispatches the theme change to the
collaborator immediately, before any save runs. -/
theorem theme_edit_dispatches_immediately :
    (applyEdit (fun _ => true) (EditEvent.selectedThemeChanged "dark") s0).2 =
      [Effect.setSelectedTheme "dark"] ∧
    (applyEdit (fun _ => true) (EditEvent.selectedThemeChanged "dark") s0).2 ≠
      ([] : List Effect) := by
  decide

/-- C5 amended: every user-input handler other than theme selection only
updates the local component state and dispatches nothing. -/
theorem edits_buffer_locally (valid : String → Bool) (ev : EditEvent)
    (s : PreferencesState)
    (h : ∀ t, ev ≠ EditEvent.selectedThemeChanged t) :
    (applyEdit valid ev s).2 = [] := by
  cases ev <;> first | rfl | exact absurd rfl (h _)

/-- C5 witness: the amended theorem applied to a concrete committer-name
edit. -/
theorem edits_buffer_locally_witness :
    (applyEdit (fun _ => true) (EditEvent.committerNameChanged "Bob") s0).2 =
      ([] : List Effect) :=
  edits_buffer_locally (fun _ => true) (EditEvent.committerNameChanged "Bob")
    s0 (fun _ h => EditEvent.noConfusion h)

/-- Whether an effect is a configuration write: a global git-config write
or removal, or a default-branch write. -/
def isConfigWrite : Effect → Bool
  | Effect.setGlobalConfigValue _ _ => true
  | Effect.removeGlobalConfigValue _ => true
  | Effect.setDefaultBranch _ => true
  | _ => false

/-- The post phase of a save contains no configuration write. -/
lemma postWrites_not_config {s : PreferencesState} {e : Effect}
    (h : e ∈ plannedPostWrites s) : isConfigWrite e = false := by
  simp [plannedPostWrites, mem_if_list, List.mem_append] at h
  rcases h with rfl | rfl | rfl | ⟨_, rfl⟩ | rfl | rfl | rfl <;> rfl

/-- A concrete account. -/
def octocatAccount : Account :=
  { login := "octocat", preferredEmail := "octocat@github.com" }

/-- A concrete account-bearing props value. -/
def pAcc : PreferencesProps :=
  { p0 with dotComAccount := some octocatAccount }

/-- The empty global configuration. -/
def cfgEmpty : String → Option String := fun _ => none

/-- The state loaded from an empty configuration with an account present. -/
def sLoadedEmpty : PreferencesState :=
  componentWillMount pAcc cfgEmpty "main" [] [] (initialState pAcc)

/-- C7 counterexample: with an empty global configuration and a signed-in
account, the loaded committer-name field holds the account login while its
initial shadow is null, so the editable state does not mirror the shadow,
and a save without any user edit writes user.name to the configuration. -/
theorem loaded_state_differs_from_shadow :
    sLoadedEmpty.committerName = "octocat" ∧
    sLoadedEmpty.initialCommitterName = none ∧
    some sLoadedEmpty.committerName ≠ sLoadedEmpty.initialCommitterName ∧
    Effect.setGlobalConfigValue "user.name" "octocat" ∈
      (onSave pAcc sLoadedEmpty noFailure).2 := by
  decide

/-- C7 amended: when every configuration read relevant to the dialog
returns a value (non-empty committer identity and merge tool, plus the
stored merge command), the loaded editable fields all equal their captured
shadows, the try phase of a save plans no write, and a save without edits
issues no configuration write at all. -/
theorem loaded_state_mirrors_initials (p : PreferencesProps)
    (cfg : String → Option String) (db : String)
    (editors shells : List String) (s : PreferencesState) (n m t c : String)
    (hs : s = componentWillMount p cfg db editors shells (initialState p))
    (hn : cfg "user.name" = some n) (hn0 : n ≠ "")
    (hm : cfg "user.email" = some m) (hm0 : m ≠ "")
    (ht : cfg "merge.tool" = some t) (ht0 : t ≠ "")
    (hc : cfg ("mergetool." ++ t ++ ".cmd") = some c) :
    (some s.committerName = s.initialCommitterName ∧
     some s.committerEmail = s.initialCommitterEmail ∧
     some s.defaultBranch = s.initialDefaultBranch ∧
     some s.mergeToolName = s.initialMergeToolName ∧
     some s.mergeToolCommand = s.initialMergeToolCommand ∧
     s.useCustomMergeTool = s.initialUseCustomMergeTool) ∧
    plannedTryWrites p s = [] ∧
    (∀ e ∈ (onSave p s noFailure).2, isConfigWrite e = false) := by
  have hnb : (n == "") = false := beq_eq_false_iff_ne.mpr hn0
  have hmb : (m == "") = false := beq_eq_false_iff_ne.mpr hm0
  have htb : (t == "") = false := beq_eq_false_iff_ne.mpr ht0
  have hfields :
      componentWillMount p cfg db editors shells (initialState p) =
        { initialState p with
          committerName := n
          committerEmail := m
          mergeToolName := t
          mergeToolCommand := c
          defaultBranch := db
          initialCommitterName := some n
          initialCommitterEmail := some m
          initialDefaultBranch := some db
          initialMergeToolName := some t
          initialMergeToolCommand := some c
          initialUseCustomMergeTool := true
          optOutOfUsageTracking := p.optOutOfUsageTracking
          confirmRepositoryRemoval := p.confirmRepositoryRemoval
          confirmDiscardChanges := p.confirmDiscardChanges
          confirmForcePush := p.confirmForcePush
          uncommittedChangesStrategy := p.uncommittedChangesStrategy
          availableShells := shells
          availableEditors := editors
          useCustomMergeTool := true } := by
    simp [componentWillMount, hn, hm, ht, hc, jsTruthy, jsOrEmpty,
      jsStringOfNullable, hnb, hmb, htb]
  subst hs
  rw [hfields]
  refine ⟨⟨rfl, rfl, rfl, rfl, rfl, rfl⟩, ?_, ?_⟩
  · simp [plannedTryWrites, initialState]
  · intro e he
    rw [onSave_noFailure] at he
    simp [plannedTryWrites, plannedPostWrites, initialState, mem_if_list,
      List.mem_append] at he
    rcases he with rfl | rfl | rfl | ⟨_, rfl⟩ | rfl | rfl | rfl | rfl <;> rfl

/-- C7 witness: the amended theorem applied to the concrete loaded state. -/
theorem loaded_state_mirrors_initials_witness :
    (some s0.committerName = s0.initialCommitterName ∧
     some s0.committerEmail = s0.initialCommitterEmail ∧
     some s0.defaultBranch = s0.initialDefaultBranch ∧
     some s0.mergeToolName = s0.initialMergeToolName ∧
     some s0.mergeToolCommand = s0.initialMergeToolCommand ∧
     s0.useCustomMergeTool = s0.initialUseCustomMergeTool) ∧
    plannedTryWrites p0 s0 = [] :=
  ⟨(loaded_state_mirrors_initials p0 cfg0 "main" [] [] s0 "Alice"
      "alice@example.com" "vimdiff" "vimdiff $BASE $LOCAL" rfl (by decide)
      (by decide) (by decide) (by decide) (by decide) (by decide)
      (by decide)).1,
   (loaded_state_mirrors_initials p0 cfg0 "main" [] [] s0 "Alice"
      "alice@example.com" "vimdiff" "vimdiff $BASE $LOCAL" rfl (by decide)
      (by decide) (by decide) (by decide) (by decide) (by decide)
      (by decide)).2.1⟩

/-- C8: on load, a missing user.name is prefilled from the login of the
dotCom account when present, otherwise of the enterprise account, and a
missing user.email from that account preferred email; with no account and
nothing configured, both fields load as the empty string, and in every
case they are plain strings. -/
theorem load_prefills_committer_identity (p : PreferencesProps)
    (cfg : String → Option String) (db : String)
    (editors shells : List String) (s : PreferencesState)
    (hs : s = componentWillMount p cfg db editors shells (initialState p)) :
    (∀ a, jsOrAccount p.dotComAccount p.enterpriseAccount = some a →
      (cfg "user.name" = none → s.committerName = a.login) ∧
      (cfg "user.email" = none →
        s.committerEmail = lookupPreferredEmail a)) ∧
    (jsOrAccount p.dotComAccount p.enterpriseAccount = none →
      cfg "user.name" = none → cfg "user.email" = none →
      s.committerName = "" ∧ s.committerEmail = "") := by
  subst hs
  constructor
  · intro a ha
    constructor
    · intro hn
      simp [componentWillMount, hn, ha, jsTruthy, jsOrEmpty]
    · intro hm
      simp [componentWillMount, hm, ha, jsTruthy, jsOrEmpty]
  · intro ha hn hm
    simp [componentWillMount, hn, hm, ha, jsTruthy, jsOrEmpty]

/-- C8 witness: the theorem applied to the concrete empty configuration
with a dotCom account signed in. -/
theorem load_prefills_committer_identity_witness :
    sLoadedEmpty.committerName = octocatAccount.login ∧
    sLoadedEmpty.committerEmail = lookupPreferredEmail octocatAccount :=
  ⟨((load_prefills_committer_identity pAcc cfgEmpty "main" [] []
      sLoadedEmpty rfl).1 octocatAccount (by decide)).1 rfl,
   ((load_prefills_committer_identity pAcc cfgEmpty "main" [] []
      sLoadedEmpty rfl).1 octocatAccount (by decide)).2 rfl⟩

/-- The loaded state with the custom merge tool checkbox unchecked. -/
def sNoCustom : PreferencesState := { s0 with useCustomMergeTool := false }

/-- C10: with the custom merge tool disabled and the initial tool named
vimdiff, the save removes the key merge.tool together with the key
mergetoolvimdiff.cmd, produced without a dot by the concatenation at line
552, and never removes the dotted key mergetool.vimdiff.cmd that the rest
of the file reads and writes. -/
theorem removal_key_missing_dot :
    sNoCustom.initialMergeToolName = some "vimdiff" ∧
    sNoCustom.useCustomMergeTool = false ∧
    Effect.removeGlobalConfigValue "merge.tool" ∈
      (onSave p0 sNoCustom noFailure).2 ∧
    Effect.removeGlobalConfigValue "mergetoolvimdiff.cmd" ∈
      (onSave p0 sNoCustom noFailure).2 ∧
    Effect.removeGlobalConfigValue "mergetool.vimdiff.cmd" ∉
      (onSave p0 sNoCustom noFailure).2 := by
  decide
